import Mathlib

/-!
Verification of the ovn-kubernetes cluster-manager allocation core.

Shallow embedding of the two source files
`go-controller/pkg/clustermanager/pod/allocator.go` (the pod allocator:
`Init`, `Sync`, `Reconcile`, the release-dedup ledger) and
`go-controller/pkg/clustermanager/persistentips/allocator.go` (the
persistent-IP claim bridge: `Reconcile`, `Sync`).

IP addresses are modelled as `Nat`; a pool's configured ranges are the
flattened set of in-range addresses.  The subnet allocator and the tunnel-ID
allocator (`pkg/allocator/ip/subnet`, `pkg/allocator/id`) are not part of the
two source files, so their operations are modelled from the spec (§4.1, §4.2);
each such definition carries a `Modelled from the spec:` doc comment.
-/

/-- Pod lifecycle phase (`corev1.PodPhase`, restricted to what
`util.PodCompleted` inspects). -/
inductive PodPhase
  | pending
  | running
  | succeeded
  | failed
  deriving DecidableEq, BEq

/-- A raw per-NAD allocation record stored on the pod:
`parsed` stands for a well-formed record, `garbage` for one that fails to
unmarshal.  Absence is represented by the NAD key missing from `Pod.anns`. -/
inductive RawAnn
  | parsed (ips : List Nat) (tunnelID : Nat)
  | garbage
  deriving DecidableEq, BEq

/-- The fields of `corev1.Pod` the allocation core reads. -/
structure Pod where
  uid : String
  ns : String
  name : String
  nodeName : String
  hostNetwork : Bool
  phase : PodPhase
  anns : List (String × RawAnn)
  deriving DecidableEq, BEq

/-- `util.PodScheduled`: the pod has a node assigned. -/
def PodScheduled (p : Pod) : Bool :=
  p.nodeName ≠ ""

/-- `util.PodWantsHostNetwork`. -/
def PodWantsHostNetwork (p : Pod) : Bool :=
  p.hostNetwork

/-- `util.PodCompleted`: phase is Succeeded or Failed. -/
def PodCompleted (p : Pod) : Bool :=
  p.phase == PodPhase.succeeded || p.phase == PodPhase.failed

/-- The parsed allocation record (`util.PodAnnotation`, restricted to the
fields the release path reads). -/
structure PodAnn where
  IPs : List Nat
  tunnelID : Nat
  deriving DecidableEq, BEq

/-- `util.UnmarshalPodAnnotation(pod.Annotations, nad)`: `none` both when the
record is absent and when it fails to parse. -/
def unmarshalPodAnn (anns : List (String × RawAnn)) (nad : String) : Option PodAnn :=
  match anns.lookup nad with
  | some (RawAnn.parsed ips tid) => some { IPs := ips, tunnelID := tid }
  | _ => none

/-- A recorded status IP of an IPAMClaim: either a parseable address or a
string `util.ParseIPNets` rejects. -/
inductive IPStr
  | valid (addr : Nat)
  | invalid
  deriving DecidableEq, BEq

/-- The fields of an `IPAMClaim` the core reads. -/
structure IPAMClaim where
  ns : String
  name : String
  statusIPs : List IPStr
  deriving DecidableEq, BEq

/-- `util.ParseIPNets`: fails if any entry is unparseable. -/
def parseIPNets : List IPStr → Except Unit (List Nat)
  | [] => Except.ok []
  | IPStr.valid a :: rest =>
    match parseIPNets rest with
    | Except.ok l => Except.ok (a :: l)
    | Except.error e => Except.error e
  | IPStr.invalid :: _ => Except.error ()

/-- `nettypes.NetworkSelectionElement`, restricted to the field the source
reads. -/
structure NetworkSelectionElement where
  ipamClaimReference : String
  deriving DecidableEq, BEq

/-- `util.NetInfo`, restricted to what the source reads.  `subnets` and
`excludeSubnets` are the flattened address sets of the configured CIDRs. -/
structure NetInfo where
  networkName : String
  requiresIPAM : Bool
  requiresTunnelIDs : Bool
  subnets : List Nat
  excludeSubnets : List Nat

/-! ## The subnet (IP pool) allocator, modelled from the spec (§4.1) -/

/-- Error taxonomy of the pool allocator (spec §7): `errAllocated` is
`ipam.IsErrAllocated`-distinguishable, `errNotInRange` covers an address
outside all configured ranges. -/
inductive IPAllocErr
  | errAllocated
  | errNotInRange
  deriving DecidableEq, BEq

/-- Modelled from the spec: the per-network address pool of
`pkg/allocator/ip/subnet` (not under src/).  `ranges` is the set of in-range
addresses (exclusions already removed), `allocated` the currently-allocated
subset. -/
structure IPPool where
  ranges : List Nat
  allocated : List Nat
  deriving DecidableEq, BEq

/-- Modelled from the spec: `Release(network, addresses...)` returns addresses
to the free set; releasing a not-currently-allocated address is a no-op and
never errors (§4.1). -/
def IPPool.releaseIPs (p : IPPool) (ips : List Nat) : IPPool :=
  { p with allocated := p.allocated.filter (fun a => !(ips.contains a)) }

/-- Modelled from the spec: reservation of one specific address; fails with
`errNotInRange` outside all configured ranges, `errAllocated` if taken
(§4.1, the in-range check coming first as in the underlying bitmap
allocator). -/
def IPPool.allocateIP (p : IPPool) (ip : Nat) : Except IPAllocErr IPPool :=
  if !(p.ranges.contains ip) then Except.error IPAllocErr.errNotInRange
  else if p.allocated.contains ip then Except.error IPAllocErr.errAllocated
  else Except.ok { p with allocated := ip :: p.allocated }

/-- Modelled from the spec: `AllocateIPs` reserves each address in turn and
stops at the first failure; on failure the pool is left as it was (the
underlying allocator rolls incomplete reservations back). -/
def IPPool.allocateIPs (p : IPPool) : List Nat → Except IPAllocErr IPPool
  | [] => Except.ok p
  | ip :: rest =>
    match p.allocateIP ip with
    | Except.ok p1 => p1.allocateIPs rest
    | Except.error e => Except.error e

/-- Modelled from the spec: `AllocateNext` picks a free in-range address
(first-fit; the spec leaves the policy open), failing when the pool is
exhausted. -/
def IPPool.allocateNext (p : IPPool) : Option (Nat × IPPool) :=
  match p.ranges.find? (fun ip => !(p.allocated.contains ip)) with
  | some ip => some (ip, { p with allocated := ip :: p.allocated })
  | none => none

/-! ## The tunnel-ID allocator, modelled from the spec (§4.2) -/

/-- Modelled from the spec: the per-network integer namespace of
`pkg/allocator/id` (not under src/): a bounded range `[0, maxID]` and a map
from symbolic names to reserved integers. -/
structure IDAllocator where
  maxID : Nat
  reserved : List (String × Nat)
  deriving DecidableEq, BEq

/-- The set of integers currently reserved. -/
def IDAllocator.reservedValues (a : IDAllocator) : List Nat :=
  a.reserved.map Prod.snd

/-- Modelled from the spec: `ReserveID(name, id)` reserves a specific integer
under a name; reserving the id a name already holds is a no-op, any other
conflict or an out-of-range id fails (§4.2 mirrors §4.1 `Reserve`). -/
def IDAllocator.reserveID (a : IDAllocator) (name : String) (id : Nat) :
    Except Unit IDAllocator :=
  match a.reserved.lookup name with
  | some existing => if existing = id then Except.ok a else Except.error ()
  | none =>
    if a.reservedValues.contains id || decide (a.maxID < id) then Except.error ()
    else Except.ok { a with reserved := (name, id) :: a.reserved }

/-- Modelled from the spec: `ReleaseID(name)` frees the integer held by
`name`; unknown names are a no-op (§4.2). -/
def IDAllocator.releaseID (a : IDAllocator) (name : String) : IDAllocator :=
  { a with reserved := a.reserved.filter (fun e => e.fst ≠ name) }

/-- Modelled from the spec: `AllocateNext(name)` returns the integer already
held by `name`, or reserves the smallest free integer in `[0, maxID]`, failing
when the namespace is exhausted (§4.2). -/
def IDAllocator.allocateNextID (a : IDAllocator) (name : String) :
    Except Unit (Nat × IDAllocator) :=
  match a.reserved.lookup name with
  | some id => Except.ok (id, a)
  | none =>
    match (List.range (a.maxID + 1)).find? (fun i => !(a.reservedValues.contains i)) with
    | some id => Except.ok (id, { a with reserved := (name, id) :: a.reserved })
    | none => Except.error ()

/-- `types.MaxLogicalPortTunnelKey`. -/
def maxLogicalPortTunnelKey : Nat := 32767

/-! ## The release-dedup ledger (source: `releasedPods` map) -/

/-- The ledger type: `releasedPods map[string]sets.Set[string]`, NAD-keyed. -/
def ReleasedPods : Type := List (String × List String)

/-- Replace the uid-set held under a key. -/
def updateLedger (m : ReleasedPods) (nad : String) (v : List String) : ReleasedPods :=
  m.map (fun e => if e.fst = nad then (e.fst, v) else e)

/-- `addReleasedPod`: create the set if absent, else insert the uid. -/
def addReleasedPod (m : ReleasedPods) (nad uid : String) : ReleasedPods :=
  match m.lookup nad with
  | none => (nad, [uid]) :: m
  | some s => updateLedger m nad (if s.contains uid then s else uid :: s)

/-- `deleteReleasedPod`: remove the uid; prune the per-NAD set when it
becomes empty. -/
def deleteReleasedPod (m : ReleasedPods) (nad uid : String) : ReleasedPods :=
  match m.lookup nad with
  | none => m
  | some s =>
    let s1 := s.filter (fun u => u ≠ uid)
    if s1.isEmpty then m.filter (fun e => e.fst ≠ nad)
    else updateLedger m nad s1

/-- `isPodReleased`. -/
def isPodReleased (m : ReleasedPods) (nad uid : String) : Bool :=
  match m.lookup nad with
  | some s => s.contains uid
  | none => false

/-- `podIdAllocationName(nad, uid)` = `"%s/%s"`. -/
def podIdAllocationName (nad uid : String) : String :=
  nad ++ "/" ++ uid

/-! ## The allocation core: state and environment -/

/-- The mutable allocator state of a `PodAllocator`.  The Go struct holds the
allocators behind nil-able interfaces gated by the `Requires…` flags; here
they are always present and the same flags gate every use. -/
structure AllocState where
  ipPool : IPPool
  idAlloc : IDAllocator
  releasedPods : ReleasedPods

/-- Error taxonomy of a reconcile (spec §7). -/
inductive ReconcileErr
  | nadMappingFailed
  | claimLookupFailed
  | ipAllocFailed
  | idAllocFailed
  | statusUpdateFailed
  deriving DecidableEq, BEq

/-- The read-only collaborators of the core (spec §6): network configuration,
the watch-factory claim cache (`GetPersistentIPs`), the NAD-to-network mapping
(`util.GetPodNADToNetworkMapping`, external to the source files), and whether
the optimistic-concurrency status write succeeds
(`kube.UpdateIPAMLeaseIPs`). -/
structure Env where
  netInfo : NetInfo
  claims : List IPAMClaim
  getNADMapping : Pod → Except Unit (Bool × List (String × NetworkSelectionElement))
  updateLeaseOK : IPAMClaim → List Nat → Bool

/-- `watchFactory.GetPersistentIPs(namespace, name)`: cache lookup. -/
def getPersistentIPs (claims : List IPAMClaim) (ns name : String) : Option IPAMClaim :=
  claims.find? (fun c => c.ns == ns && c.name == name)

/-- Lines 206–210 of `releasePodOnNAD`: the attachment names a claim and the
lookup succeeds. -/
def hasPersistentIPsB (env : Env) (pod : Pod) (nse : NetworkSelectionElement) : Bool :=
  nse.ipamClaimReference ≠ "" &&
    (getPersistentIPs env.claims pod.ns nse.ipamClaimReference).isSome

/-! ## The release path (source: `releasePodOnNAD`) -/

/-- `releasePodOnNAD`.  The only fallible callee, `ReleaseIPs`, never errors in
the spec model (§4.1: releasing a free address is a no-op), so the Go error
plumbing is vacuous and the function is total. -/
def releasePodOnNAD (env : Env) (s : AllocState) (pod : Pod) (nad : String)
    (nse : NetworkSelectionElement) (podDeleted releaseFromAllocator : Bool) :
    AllocState :=
  -- track released pods even with no (or unparseable) record: proceed with
  -- an empty one in case a user removed it manually
  let ann := (unmarshalPodAnn pod.anns nad).getD { IPs := [], tunnelID := 0 }
  let uid := pod.uid
  let hasIPAM := env.netInfo.requiresIPAM
  let hasIDAllocation := env.netInfo.requiresTunnelIDs
  let hasPersistent := hasPersistentIPsB env pod nse
  if !hasIPAM && !hasIDAllocation then s
  else
    -- do not release from the allocators if not flagged to do so or if
    -- already previously released
    let doRelease := releaseFromAllocator && !(isPodReleased s.releasedPods nad uid)
    let doReleaseIDs := doRelease && hasIDAllocation
    let doReleaseIPs := doRelease && hasIPAM && !hasPersistent
    let s1 :=
      if doReleaseIDs then
        { s with idAlloc := s.idAlloc.releaseID (podIdAllocationName nad uid) }
      else s
    let s2 :=
      if doReleaseIPs then { s1 with ipPool := s1.ipPool.releaseIPs ann.IPs }
      else s1
    if podDeleted then
      { s2 with releasedPods := deleteReleasedPod s2.releasedPods nad uid }
    else
      { s2 with releasedPods := addReleasedPod s2.releasedPods nad uid }

/-! ## The claim bridge (source: `persistentips/allocator.go`) -/

/-- A status write performed against the API server. -/
structure StatusWrite where
  ns : String
  name : String
  ips : List Nat
  deriving DecidableEq, BEq

/-- `persistentips.Allocator.Reconcile(ipamClaim, ips)`: a claim whose status
already holds IPs is left alone; otherwise the status is written, write
failure propagating.  The returned list records the writes performed. -/
def pipsReconcile (updateLeaseOK : IPAMClaim → List Nat → Bool)
    (ipamClaim : IPAMClaim) (ips : List Nat) : Except Unit (List StatusWrite) :=
  if 0 < ipamClaim.statusIPs.length then Except.ok []
  else if updateLeaseOK ipamClaim ips then
    Except.ok [{ ns := ipamClaim.ns, name := ipamClaim.name, ips := ips }]
  else Except.error ()

/-- An element of the heterogeneous `[]interface{}` handed to the `Sync`
functions: a pod, a claim, or something else entirely. -/
inductive SyncObj
  | pod (p : Pod)
  | claim (c : IPAMClaim)
  | other
  deriving DecidableEq, BEq

/-- The collection loop of `persistentips.Allocator.Sync`: non-claim elements
are logged and skipped; a parse failure aborts with an error. -/
def collectClaimIPs : List SyncObj → Except Unit (List Nat)
  | [] => Except.ok []
  | SyncObj.claim c :: rest =>
    match parseIPNets c.statusIPs with
    | Except.error e => Except.error e
    | Except.ok l =>
      match collectClaimIPs rest with
      | Except.error e => Except.error e
      | Except.ok r => Except.ok (l ++ r)
  | _ :: rest => collectClaimIPs rest

/-- `persistentips.Allocator.Sync(objs)`: reserve every recorded IP,
tolerating `errAllocated` (the underlying allocator rolled the attempt back),
propagating any other failure. -/
def pipsSync (pool : IPPool) (objs : List SyncObj) : Except Unit IPPool :=
  match collectClaimIPs objs with
  | Except.error e => Except.error e
  | Except.ok ips =>
    if 0 < ips.length then
      match pool.allocateIPs ips with
      | Except.ok p1 => Except.ok p1
      | Except.error IPAllocErr.errAllocated => Except.ok pool
      | Except.error _ => Except.error ()
    else Except.ok pool

/-- `persistentips.Allocator.Delete(pips)`: release the claim's recorded IPs
back to the pool (parse failure propagates). -/
def pipsDelete (pool : IPPool) (pips : IPAMClaim) : Except Unit IPPool :=
  match parseIPNets pips.statusIPs with
  | Except.error e => Except.error e
  | Except.ok ips => Except.ok (pool.releaseIPs ips)

/-! ## The allocate path (source: `allocatePodOnNAD`, `findIPAMClaim`) -/

/-- `findIPAMClaim(pod, network)`: look the referenced claim up in the cache,
failing if it is referenced but unknown; no reference means no claim. -/
def findIPAMClaim (env : Env) (pod : Pod) (network : NetworkSelectionElement) :
    Except Unit (Option IPAMClaim) :=
  if network.ipamClaimReference ≠ "" then
    match getPersistentIPs env.claims pod.ns network.ipamClaimReference with
    | some claim => Except.ok (some claim)
    | none => Except.error ()
  else Except.ok none

/-- Modelled from the spec (as are the next three definitions):
`pod.PodAnnotationAllocator.AllocatePodAnnotationWithTunnelID`
(`pkg/allocator/pod`, not under src/), per §4.4 Allocate path: a claim's
non-empty status IPs take precedence, else the pod's recorded IPs are reused,
else a fresh address is drawn; with the `dontReallocate` policy a failed reuse
fails the reconcile outright; the tunnel ID is reserved under the
`(nad, uid)`-derived name. -/
def desiredIPs (pod : Pod) (nad : String) (ipamClaim : Option IPAMClaim) :
    Except Unit (List Nat) :=
  match ipamClaim with
  | some c =>
    if c.statusIPs.isEmpty then
      Except.ok ((unmarshalPodAnn pod.anns nad).getD { IPs := [], tunnelID := 0 }).IPs
    else parseIPNets c.statusIPs
  | none =>
    Except.ok ((unmarshalPodAnn pod.anns nad).getD { IPs := [], tunnelID := 0 }).IPs

/-- The IP half of the allocate path: reuse the desired addresses when any,
else draw a fresh one; with `dontReallocate` a failed reuse fails outright. -/
def ipStepAlloc (netInfo : NetInfo) (s : AllocState) (pod : Pod) (nad : String)
    (ipamClaim : Option IPAMClaim) : Except ReconcileErr (IPPool × List Nat) :=
  if netInfo.requiresIPAM then
    match desiredIPs pod nad ipamClaim with
    | Except.error _ => Except.error ReconcileErr.ipAllocFailed
    | Except.ok [] =>
      match s.ipPool.allocateNext with
      | some (ip, pool) => Except.ok (pool, [ip])
      | none => Except.error ReconcileErr.ipAllocFailed
    | Except.ok ips =>
      match s.ipPool.allocateIPs ips with
      | Except.ok pool => Except.ok (pool, ips)
      | Except.error _ => Except.error ReconcileErr.ipAllocFailed
  else Except.ok (s.ipPool, [])

/-- The tunnel-ID half of the allocate path. -/
def idStepAlloc (netInfo : NetInfo) (s : AllocState) (pod : Pod) (nad : String) :
    Except ReconcileErr (IDAllocator × Nat) :=
  if netInfo.requiresTunnelIDs then
    match s.idAlloc.allocateNextID (podIdAllocationName nad pod.uid) with
    | Except.ok (id, ida) => Except.ok (ida, id)
    | Except.error _ => Except.error ReconcileErr.idAllocFailed
  else Except.ok (s.idAlloc, 0)

/-- The composition of the two halves of the modelled allocate path. -/
def allocatePodAnnWithTunnelID (netInfo : NetInfo) (s : AllocState) (pod : Pod)
    (nad : String) (ipamClaim : Option IPAMClaim) :
    Except ReconcileErr (AllocState × PodAnn) :=
  match ipStepAlloc netInfo s pod nad ipamClaim with
  | Except.error e => Except.error e
  | Except.ok (pool, ips) =>
    match idStepAlloc netInfo s pod nad with
    | Except.error e => Except.error e
    | Except.ok (ida, tid) =>
      Except.ok ({ s with ipPool := pool, idAlloc := ida },
                 { IPs := ips, tunnelID := tid })

/-- The claim-lookup step of `allocatePodOnNAD`: `findIPAMClaim` runs only on
IPAM networks, a failed lookup failing the reconcile. -/
def claimStepAlloc (env : Env) (pod : Pod) (network : NetworkSelectionElement) :
    Except ReconcileErr (Option IPAMClaim) :=
  if env.netInfo.requiresIPAM then
    match findIPAMClaim env pod network with
    | Except.ok c => Except.ok c
    | Except.error _ => Except.error ReconcileErr.claimLookupFailed
  else Except.ok none

/-- `allocatePodOnNAD`: find the claim (IPAM networks only), allocate the
record, then hand freshly allocated IPs to the claim bridge. -/
def allocatePodOnNAD (env : Env) (s : AllocState) (pod : Pod) (nad : String)
    (network : NetworkSelectionElement) : Except ReconcileErr AllocState :=
  match claimStepAlloc env pod network with
  | Except.error e => Except.error e
  | Except.ok ipamClaim =>
    match allocatePodAnnWithTunnelID env.netInfo s pod nad ipamClaim with
    | Except.error e => Except.error e
    | Except.ok (s1, ann) =>
      match ipamClaim with
      | some claim =>
        if env.netInfo.requiresIPAM then
          match pipsReconcile env.updateLeaseOK claim ann.IPs with
          | Except.ok _ => Except.ok s1
          | Except.error _ => Except.error ReconcileErr.statusUpdateFailed
        else Except.ok s1
      | none => Except.ok s1

/-! ## Event dispatch (source: `reconcile`, `reconcileForNAD`) -/

/-- The snapshot the classification reads: `new` when present, else `old`
(both absent never happens: every caller passes at least one). -/
def activePod : Option Pod → Option Pod → Option Pod
  | old, none => old
  | _, some p => some p

/-- `reconcileForNAD`: completed or deleted pods take the release path,
everything else the allocate path. -/
def reconcileForNAD (env : Env) (s : AllocState) (old new : Option Pod)
    (nad : String) (network : NetworkSelectionElement)
    (releaseIPsFromAllocator : Bool) : Except ReconcileErr AllocState :=
  match activePod old new with
  | none => Except.ok s
  | some pod =>
    -- podDeleted := new == nil, podCompleted := util.PodCompleted(pod)
    if PodCompleted pod || new.isNone then
      Except.ok (releasePodOnNAD env s pod nad network new.isNone releaseIPsFromAllocator)
    else
      allocatePodOnNAD env s pod nad network

/-- The per-NAD loop of `reconcile`: abort on the first failing NAD. -/
def reconcileNADs (env : Env) (old new : Option Pod) (releaseFromAllocator : Bool) :
    AllocState → List (String × NetworkSelectionElement) → Except ReconcileErr AllocState
  | s, [] => Except.ok s
  | s, (nad, network) :: rest =>
    match reconcileForNAD env s old new nad network releaseFromAllocator with
    | Except.error e => Except.error e
    | Except.ok s1 => reconcileNADs env old new releaseFromAllocator s1 rest

/-- `reconcile(old, new, releaseFromAllocator)`: nothing to do for
unscheduled or host-network pods, or pods not on this network; otherwise
reconcile every NAD the pod attaches to this network through. -/
def reconcile (env : Env) (s : AllocState) (old new : Option Pod)
    (releaseFromAllocator : Bool) : Except ReconcileErr AllocState :=
  match activePod old new with
  | none => Except.ok s
  | some pod =>
    if !(PodScheduled pod) || PodWantsHostNetwork pod then Except.ok s
    else
      match env.getNADMapping pod with
      | Except.error _ => Except.error ReconcileErr.nadMappingFailed
      | Except.ok (onNetwork, networkMap) =>
        if !onNetwork then Except.ok s
        else reconcileNADs env old new releaseFromAllocator s networkMap

/-- `PodAllocator.Reconcile(old, new)`: a live event releases from the
allocators. -/
def podAllocatorReconcile (env : Env) (s : AllocState) (old new : Option Pod) :
    Except ReconcileErr AllocState :=
  reconcile env s old new true

/-- `PodAllocator.Sync(objs)`: replay every pod through `reconcile` with
release suppressed; non-pod elements and per-pod failures are logged and
skipped; always returns nil. -/
def podSyncStep (env : Env) (acc : AllocState) (obj : SyncObj) : AllocState :=
  match obj with
  | SyncObj.pod p =>
    match reconcile env acc none (some p) false with
    | Except.ok s1 => s1
    | Except.error _ => acc
  | _ => acc

def podAllocatorSync (env : Env) (s : AllocState) (objs : List SyncObj) :
    Except ReconcileErr AllocState :=
  Except.ok (objs.foldl (podSyncStep env) s)

/-! ## Initialization (source: `Init`) -/

/-- `AddOrUpdateSubnet`, modelled from the spec (§4.1): install the configured
ranges minus the exclusions; an exclusion outside all ranges is an
`InvalidRangeError`. -/
def addOrUpdateSubnet (p : IPPool) (ranges excludes : List Nat) : Except Unit IPPool :=
  if excludes.all (fun e => ranges.contains e) then
    Except.ok { ranges := ranges.filter (fun a => !(excludes.contains a)),
                allocated := p.allocated }
  else Except.error ()

/-- The IPAM half of `Init`. -/
def initIPAM (netInfo : NetInfo) (s : AllocState) : Except Unit AllocState :=
  if netInfo.requiresIPAM then
    match addOrUpdateSubnet s.ipPool netInfo.subnets netInfo.excludeSubnets with
    | Except.ok p => Except.ok { s with ipPool := p }
    | Except.error e => Except.error e
  else Except.ok s

/-- `PodAllocator.Init`: on a tunnel-ID network, build a fresh ID allocator
over `[0, MaxLogicalPortTunnelKey]` and reserve id 0 under the sentinel name
`"zero"` (we don't want to assign this id to any of the pods), failing if
that reservation fails; then install the configured subnets. -/
def podAllocatorInit (netInfo : NetInfo) (s : AllocState) : Except Unit AllocState :=
  if netInfo.requiresTunnelIDs then
    match (IDAllocator.mk maxLogicalPortTunnelKey []).reserveID "zero" 0 with
    | Except.error e => Except.error e
    | Except.ok ida => initIPAM netInfo { s with idAlloc := ida }
  else initIPAM netInfo s

/-! ## Spec-side definitions and concrete fixtures -/

/-! ## Test fixtures used by the witnesses -/

def wNetInfo : NetInfo :=
  { networkName := "net0", requiresIPAM := true, requiresTunnelIDs := true,
    subnets := [1, 2, 3], excludeSubnets := [] }

def wNSE : NetworkSelectionElement := { ipamClaimReference := "" }

def wPod : Pod :=
  { uid := "uid1", ns := "ns1", name := "p1", nodeName := "node1",
    hostNetwork := false, phase := PodPhase.succeeded,
    anns := [("nad1", RawAnn.parsed [2] 5)] }

def wEnv : Env :=
  { netInfo := wNetInfo, claims := [],
    getNADMapping := fun _ => Except.ok (true, [("nad1", wNSE)]),
    updateLeaseOK := fun _ _ => true }

def wState : AllocState :=
  { ipPool := { ranges := [1, 2, 3], allocated := [2] },
    idAlloc := { maxID := maxLogicalPortTunnelKey, reserved := [("zero", 0)] },
    releasedPods := [] }

def wClaim : IPAMClaim :=
  { ns := "ns1", name := "claim1", statusIPs := [IPStr.valid 2] }

def wNSEC : NetworkSelectionElement := { ipamClaimReference := "claim1" }

def wEnvC : Env :=
  { netInfo := wNetInfo, claims := [wClaim],
    getNADMapping := fun _ => Except.ok (true, [("nad1", wNSEC)]),
    updateLeaseOK := fun _ _ => true }

/-- The verdict of the spec's per-(workload, attachment) state machine. -/
inductive EventAction
  | noop
  | release
  | allocate
  deriving DecidableEq, BEq

/-- The spec's state machine (§4.4), written from the spec's words:
`Unscheduled` → no-op; `HostNetworked` → no-op; `Completed` or `Deleted`
(new snapshot absent) → Release; otherwise (`Active`) → Allocate. -/
def specClassify (new : Option Pod) (pod : Pod) : EventAction :=
  if pod.nodeName = "" then EventAction.noop
  else if pod.hostNetwork then EventAction.noop
  else if PodCompleted pod || new.isNone then EventAction.release
  else EventAction.allocate

/-- The invariant maintained for a tunnel-ID namespace: the sentinel name
`"zero"` holds id 0, and no other name holds 0. -/
def zeroSentinel (a : IDAllocator) : Prop :=
  List.lookup "zero" a.reserved = some 0 ∧
  ∀ n i, (n, i) ∈ a.reserved → i = 0 → n = "zero"

def wClaim9 : IPAMClaim :=
  { ns := "ns1", name := "claim9", statusIPs := [IPStr.valid 9] }

def wSyncState : AllocState :=
  { ipPool := { ranges := [1, 2, 3], allocated := [2] },
    idAlloc := { maxID := maxLogicalPortTunnelKey, reserved := [("zero", 0)] },
    releasedPods := [("nad1", ["uid1"])] }

def wEnvErr : Env := { wEnv with getNADMapping := fun _ => Except.error () }


/-! ## Helper lemmas: association-list lookups and the ledger -/

theorem lookup_cons {β : Type} (k : String) (e : String × β) (l : List (String × β)) :
    List.lookup k (e :: l) = if k = e.1 then some e.2 else List.lookup k l := by
  rcases e with ⟨a, b⟩
  by_cases h : k = a
  · simp [List.lookup, h]
  · simp [List.lookup, h, beq_eq_false_iff_ne.mpr h]

theorem lookup_updateLedger (m : ReleasedPods) (nad : String) (v : List String) :
    List.lookup nad (updateLedger m nad v) = (List.lookup nad m).map (fun _ => v) := by
  induction m with
  | nil => rfl
  | cons e m ih =>
    rcases e with ⟨a, b⟩
    by_cases h : a = nad
    · subst h
      simp [updateLedger, lookup_cons]
    · simp only [updateLedger, List.map_cons] at *
      rw [if_neg h]
      rw [lookup_cons, lookup_cons]
      rw [if_neg (fun hh => h hh.symm), if_neg (fun hh => h hh.symm)]
      exact ih

theorem lookup_filter_ne {β : Type} (m : List (String × β)) (nad : String) :
    List.lookup nad (m.filter (fun e => e.fst ≠ nad)) = none := by
  induction m with
  | nil => rfl
  | cons e m ih =>
    rcases e with ⟨a, b⟩
    simp only [List.filter_cons]
    by_cases h : a = nad
    · subst h
      simp only [ne_eq, not_true_eq_false, decide_False, Bool.false_eq_true, if_false]
      exact ih
    · simp only [ne_eq, h, not_false_eq_true, decide_True, if_true]
      rw [lookup_cons]
      rw [if_neg (fun hh => h hh.symm)]
      exact ih

theorem isPodReleased_add (m : ReleasedPods) (nad uid : String) :
    isPodReleased (addReleasedPod m nad uid) nad uid = true := by
  unfold addReleasedPod isPodReleased
  cases h : List.lookup nad m with
  | none =>
    rw [lookup_cons]
    simp
  | some s =>
    rw [lookup_updateLedger, h]
    by_cases hc : uid ∈ s <;> simp [hc]

theorem isPodReleased_delete (m : ReleasedPods) (nad uid : String) :
    isPodReleased (deleteReleasedPod m nad uid) nad uid = false := by
  unfold deleteReleasedPod
  cases h : List.lookup nad m with
  | none => simp only [isPodReleased, h]
  | some s =>
    by_cases he : (s.filter (fun u => u ≠ uid)).isEmpty
    · simp only [isPodReleased, he, ite_true]
      rw [lookup_filter_ne]
    · simp only [isPodReleased, he, Bool.false_eq_true, if_false]
      rw [lookup_updateLedger, h]
      simp [List.elem_iff, List.mem_filter]

/-! ## Helper lemmas: the release path -/

theorem gate_false {env : Env}
    (hg : (env.netInfo.requiresIPAM || env.netInfo.requiresTunnelIDs) = true) :
    (!env.netInfo.requiresIPAM && !env.netInfo.requiresTunnelIDs) = false := by
  cases hi : env.netInfo.requiresIPAM <;> cases ht : env.netInfo.requiresTunnelIDs <;>
    simp_all

theorem releasePodOnNAD_frame (env : Env) (s : AllocState) (pod : Pod)
    (nad : String) (nse : NetworkSelectionElement) (d rel : Bool)
    (h : (rel && !(isPodReleased s.releasedPods nad pod.uid)) = false) :
    (releasePodOnNAD env s pod nad nse d rel).ipPool = s.ipPool ∧
    (releasePodOnNAD env s pod nad nse d rel).idAlloc = s.idAlloc := by
  unfold releasePodOnNAD
  by_cases hg : (!env.netInfo.requiresIPAM && !env.netInfo.requiresTunnelIDs) = true
  · simp [hg]
  · simp only [Bool.not_eq_true] at hg
    simp [hg, h]
    cases d <;> simp

theorem releasePodOnNAD_ledger (env : Env) (s : AllocState) (pod : Pod)
    (nad : String) (nse : NetworkSelectionElement) (d rel : Bool)
    (hg : (env.netInfo.requiresIPAM || env.netInfo.requiresTunnelIDs) = true) :
    (releasePodOnNAD env s pod nad nse d rel).releasedPods =
      (if d then deleteReleasedPod s.releasedPods nad pod.uid
       else addReleasedPod s.releasedPods nad pod.uid) := by
  unfold releasePodOnNAD
  simp only [gate_false hg, Bool.false_eq_true, if_false]
  cases d <;> simp [apply_ite AllocState.releasedPods]

theorem releasePodOnNAD_alloc_effect (env : Env) (s : AllocState) (pod : Pod)
    (nad : String) (nse : NetworkSelectionElement) (d : Bool)
    (hg : (env.netInfo.requiresIPAM || env.netInfo.requiresTunnelIDs) = true)
    (hnot : isPodReleased s.releasedPods nad pod.uid = false) :
    (releasePodOnNAD env s pod nad nse d true).idAlloc =
      (if env.netInfo.requiresTunnelIDs then
        s.idAlloc.releaseID (podIdAllocationName nad pod.uid)
       else s.idAlloc) ∧
    (releasePodOnNAD env s pod nad nse d true).ipPool =
      (if (env.netInfo.requiresIPAM && !(hasPersistentIPsB env pod nse)) then
        s.ipPool.releaseIPs ((unmarshalPodAnn pod.anns nad).getD { IPs := [], tunnelID := 0 }).IPs
       else s.ipPool) := by
  unfold releasePodOnNAD
  simp only [gate_false hg, Bool.false_eq_true, if_false, hnot]
  simp only [Bool.not_false, Bool.and_true, Bool.true_and]
  cases ht : env.netInfo.requiresTunnelIDs <;>
    cases hip : (env.netInfo.requiresIPAM && !(hasPersistentIPsB env pod nse)) <;>
      cases d <;> simp_all

theorem releaseIPs_nil (p : IPPool) : p.releaseIPs [] = p := by
  simp [IPPool.releaseIPs]

theorem releasePodOnNAD_pips_frame (env : Env) (s : AllocState) (pod : Pod)
    (nad : String) (nse : NetworkSelectionElement) (d rel : Bool)
    (hp : hasPersistentIPsB env pod nse = true) :
    (releasePodOnNAD env s pod nad nse d rel).ipPool = s.ipPool := by
  unfold releasePodOnNAD
  by_cases hg : (!env.netInfo.requiresIPAM && !env.netInfo.requiresTunnelIDs) = true
  · simp [hg]
  · simp only [Bool.not_eq_true] at hg
    simp [hg, hp, apply_ite AllocState.ipPool]

/-! ## C1: at-most-once release while the ledger entry exists -/

/-- **C1**: driving the release path twice for the same (NAD, pod-uid) — a
completed transition followed by any further release event before the delete
clears the ledger entry — releases from the allocators exactly once: the first
call marks the pair released (and, when IPAM applies and no live persistent
claim holds the IPs, performs the IP release), and the second call finds
`isPodReleased` true and leaves both allocators untouched. -/
theorem release_path_releases_exactly_once (env : Env) (s : AllocState)
    (pod : Pod) (nad : String) (nse nse2 : NetworkSelectionElement) (d : Bool)
    (hg : (env.netInfo.requiresIPAM || env.netInfo.requiresTunnelIDs) = true) :
    isPodReleased (releasePodOnNAD env s pod nad nse false true).releasedPods nad pod.uid
      = true ∧
    (releasePodOnNAD env (releasePodOnNAD env s pod nad nse false true) pod nad nse2 d true).ipPool
      = (releasePodOnNAD env s pod nad nse false true).ipPool ∧
    (releasePodOnNAD env (releasePodOnNAD env s pod nad nse false true) pod nad nse2 d true).idAlloc
      = (releasePodOnNAD env s pod nad nse false true).idAlloc ∧
    (isPodReleased s.releasedPods nad pod.uid = false →
      (env.netInfo.requiresIPAM && !(hasPersistentIPsB env pod nse)) = true →
      (releasePodOnNAD env s pod nad nse false true).ipPool
        = s.ipPool.releaseIPs
            ((unmarshalPodAnn pod.anns nad).getD { IPs := [], tunnelID := 0 }).IPs) := by
  have h1 : isPodReleased (releasePodOnNAD env s pod nad nse false true).releasedPods
      nad pod.uid = true := by
    rw [releasePodOnNAD_ledger env s pod nad nse false true hg]
    simp [isPodReleased_add]
  refine ⟨h1, ?_, ?_, ?_⟩
  · exact (releasePodOnNAD_frame env _ pod nad nse2 d true (by simp [h1])).1
  · exact (releasePodOnNAD_frame env _ pod nad nse2 d true (by simp [h1])).2
  · intro hnot hip
    have he := (releasePodOnNAD_alloc_effect env s pod nad nse false hg hnot).2
    rw [he, if_pos hip]

/-- Witness for C1 at a concrete (network, pod, state). -/
theorem release_path_releases_exactly_once_witness :
    isPodReleased (releasePodOnNAD wEnv wState wPod "nad1" wNSE false true).releasedPods "nad1" wPod.uid
      = true ∧
    (releasePodOnNAD wEnv (releasePodOnNAD wEnv wState wPod "nad1" wNSE false true) wPod "nad1" wNSE false true).ipPool
      = (releasePodOnNAD wEnv wState wPod "nad1" wNSE false true).ipPool ∧
    (releasePodOnNAD wEnv (releasePodOnNAD wEnv wState wPod "nad1" wNSE false true) wPod "nad1" wNSE false true).idAlloc
      = (releasePodOnNAD wEnv wState wPod "nad1" wNSE false true).idAlloc ∧
    (isPodReleased wState.releasedPods "nad1" wPod.uid = false →
      (wEnv.netInfo.requiresIPAM && !(hasPersistentIPsB wEnv wPod wNSE)) = true →
      (releasePodOnNAD wEnv wState wPod "nad1" wNSE false true).ipPool
        = wState.ipPool.releaseIPs
            ((unmarshalPodAnn wPod.anns "nad1").getD { IPs := [], tunnelID := 0 }).IPs) :=
  release_path_releases_exactly_once wEnv wState wPod "nad1" wNSE wNSE false rfl

/-! ## C9: the ledger is updated on every traversal of the release path -/

/-- **C9**: independently of the release flag and of any previous release, a
completed (not deleted) pod is marked released and a deleted pod's entry is
cleared; in particular a pod replayed through the release path with release
suppressed (Sync) is marked, so a later live release event no longer touches
the allocators, and the suppressed traversal itself left them untouched. -/
theorem release_ledger_always_updated (env : Env) (s : AllocState) (pod : Pod)
    (nad : String) (nse nse2 : NetworkSelectionElement) (rel d : Bool)
    (hg : (env.netInfo.requiresIPAM || env.netInfo.requiresTunnelIDs) = true) :
    isPodReleased (releasePodOnNAD env s pod nad nse false rel).releasedPods nad pod.uid
      = true ∧
    isPodReleased (releasePodOnNAD env s pod nad nse true rel).releasedPods nad pod.uid
      = false ∧
    (releasePodOnNAD env s pod nad nse false false).ipPool = s.ipPool ∧
    (releasePodOnNAD env s pod nad nse false false).idAlloc = s.idAlloc ∧
    (releasePodOnNAD env (releasePodOnNAD env s pod nad nse false false) pod nad nse2 d true).ipPool
      = (releasePodOnNAD env s pod nad nse false false).ipPool ∧
    (releasePodOnNAD env (releasePodOnNAD env s pod nad nse false false) pod nad nse2 d true).idAlloc
      = (releasePodOnNAD env s pod nad nse false false).idAlloc := by
  have hmark : ∀ r : Bool,
      isPodReleased (releasePodOnNAD env s pod nad nse false r).releasedPods nad pod.uid
        = true := by
    intro r
    rw [releasePodOnNAD_ledger env s pod nad nse false r hg]
    simp [isPodReleased_add]
  refine ⟨hmark rel, ?_, ?_, ?_, ?_, ?_⟩
  · rw [releasePodOnNAD_ledger env s pod nad nse true rel hg]
    simp [isPodReleased_delete]
  · exact (releasePodOnNAD_frame env s pod nad nse false false (by simp)).1
  · exact (releasePodOnNAD_frame env s pod nad nse false false (by simp)).2
  · exact (releasePodOnNAD_frame env _ pod nad nse2 d true (by simp [hmark false])).1
  · exact (releasePodOnNAD_frame env _ pod nad nse2 d true (by simp [hmark false])).2

/-- Witness for C9 at a concrete (network, pod, state). -/
theorem release_ledger_always_updated_witness :
    isPodReleased (releasePodOnNAD wEnv wState wPod "nad1" wNSE false true).releasedPods "nad1" wPod.uid
      = true ∧
    isPodReleased (releasePodOnNAD wEnv wState wPod "nad1" wNSE true true).releasedPods "nad1" wPod.uid
      = false ∧
    (releasePodOnNAD wEnv wState wPod "nad1" wNSE false false).ipPool = wState.ipPool ∧
    (releasePodOnNAD wEnv wState wPod "nad1" wNSE false false).idAlloc = wState.idAlloc ∧
    (releasePodOnNAD wEnv (releasePodOnNAD wEnv wState wPod "nad1" wNSE false false) wPod "nad1" wNSE true true).ipPool
      = (releasePodOnNAD wEnv wState wPod "nad1" wNSE false false).ipPool ∧
    (releasePodOnNAD wEnv (releasePodOnNAD wEnv wState wPod "nad1" wNSE false false) wPod "nad1" wNSE true true).idAlloc
      = (releasePodOnNAD wEnv wState wPod "nad1" wNSE false false).idAlloc :=
  release_ledger_always_updated wEnv wState wPod "nad1" wNSE wNSE true true rfl

/-! ## C8: a missing or unparseable allocation record is tolerated -/

/-- **C8**: when the pod's allocation record for the NAD is absent or fails to
unmarshal, the release path proceeds with an empty record — it releases no IPs
(the pool is unchanged) — and still performs the ledger bookkeeping, so manual
removal of the record is tolerated.  (In the model the path is total, so "does
not fail" holds by construction: the only fallible callee, `ReleaseIPs`, never
errors per spec §4.1.) -/
theorem release_tolerates_missing_record (env : Env) (s : AllocState)
    (pod : Pod) (nad : String) (nse : NetworkSelectionElement) (d rel : Bool)
    (hann : unmarshalPodAnn pod.anns nad = none) :
    (releasePodOnNAD env s pod nad nse d rel).ipPool = s.ipPool ∧
    ((env.netInfo.requiresIPAM || env.netInfo.requiresTunnelIDs) = true →
      (releasePodOnNAD env s pod nad nse d rel).releasedPods =
        (if d then deleteReleasedPod s.releasedPods nad pod.uid
         else addReleasedPod s.releasedPods nad pod.uid)) := by
  constructor
  · unfold releasePodOnNAD
    rw [hann]
    by_cases hg : (!env.netInfo.requiresIPAM && !env.netInfo.requiresTunnelIDs) = true
    · simp [hg]
    · simp only [Bool.not_eq_true] at hg
      simp [hg, releaseIPs_nil, apply_ite AllocState.ipPool]
  · intro hg
    exact releasePodOnNAD_ledger env s pod nad nse d rel hg

/-- Witness for C8: a pod with no allocation record at all. -/
theorem release_tolerates_missing_record_witness :
    (releasePodOnNAD wEnv wState wPod "nadX" wNSE false true).ipPool = wState.ipPool ∧
    ((wEnv.netInfo.requiresIPAM || wEnv.netInfo.requiresTunnelIDs) = true →
      (releasePodOnNAD wEnv wState wPod "nadX" wNSE false true).releasedPods =
        (if false then deleteReleasedPod wState.releasedPods "nadX" wPod.uid
         else addReleasedPod wState.releasedPods "nadX" wPod.uid)) :=
  release_tolerates_missing_record wEnv wState wPod "nadX" wNSE false true rfl

/-! ## C6: persistent-IP claims suppress IP release but not ID release -/

/-- **C6**: on the release path, when the attachment references a stability
claim and the claim lookup succeeds, the pod's IPs are not released from the
pool, while the tunnel ID (on a tunnel-ID network, first release) still is;
when the claim no longer exists, IP release proceeds normally. -/
theorem release_skips_ips_of_live_claims (env : Env) (s : AllocState)
    (pod : Pod) (nad : String) (nse : NetworkSelectionElement) (c : IPAMClaim)
    (d rel : Bool)
    (hg : (env.netInfo.requiresIPAM || env.netInfo.requiresTunnelIDs) = true) :
    (nse.ipamClaimReference ≠ "" →
      getPersistentIPs env.claims pod.ns nse.ipamClaimReference = some c →
      (releasePodOnNAD env s pod nad nse d rel).ipPool = s.ipPool) ∧
    (env.netInfo.requiresTunnelIDs = true →
      isPodReleased s.releasedPods nad pod.uid = false →
      (releasePodOnNAD env s pod nad nse d true).idAlloc
        = s.idAlloc.releaseID (podIdAllocationName nad pod.uid)) ∧
    (getPersistentIPs env.claims pod.ns nse.ipamClaimReference = none →
      env.netInfo.requiresIPAM = true →
      isPodReleased s.releasedPods nad pod.uid = false →
      (releasePodOnNAD env s pod nad nse d true).ipPool
        = s.ipPool.releaseIPs
            ((unmarshalPodAnn pod.anns nad).getD { IPs := [], tunnelID := 0 }).IPs) := by
  refine ⟨?_, ?_, ?_⟩
  · intro href hsome
    refine releasePodOnNAD_pips_frame env s pod nad nse d rel ?_
    simp [hasPersistentIPsB, href, hsome]
  · intro ht hnot
    have he := (releasePodOnNAD_alloc_effect env s pod nad nse d hg hnot).1
    rw [he, if_pos ht]
  · intro hnone hip hnot
    have hp : hasPersistentIPsB env pod nse = false := by
      simp [hasPersistentIPsB, hnone]
    have he := (releasePodOnNAD_alloc_effect env s pod nad nse d hg hnot).2
    rw [he, if_pos (by simp [hip, hp])]

/-- Witness for C6: an attachment whose claim exists in the cache. -/
theorem release_skips_ips_of_live_claims_witness :
    (wNSEC.ipamClaimReference ≠ "" →
      getPersistentIPs wEnvC.claims wPod.ns wNSEC.ipamClaimReference = some wClaim →
      (releasePodOnNAD wEnvC wState wPod "nad1" wNSEC false true).ipPool = wState.ipPool) ∧
    (wEnvC.netInfo.requiresTunnelIDs = true →
      isPodReleased wState.releasedPods "nad1" wPod.uid = false →
      (releasePodOnNAD wEnvC wState wPod "nad1" wNSEC false true).idAlloc
        = wState.idAlloc.releaseID (podIdAllocationName "nad1" wPod.uid)) ∧
    (getPersistentIPs wEnvC.claims wPod.ns wNSEC.ipamClaimReference = none →
      wEnvC.netInfo.requiresIPAM = true →
      isPodReleased wState.releasedPods "nad1" wPod.uid = false →
      (releasePodOnNAD wEnvC wState wPod "nad1" wNSEC false true).ipPool
        = wState.ipPool.releaseIPs
            ((unmarshalPodAnn wPod.anns "nad1").getD { IPs := [], tunnelID := 0 }).IPs) :=
  release_skips_ips_of_live_claims wEnvC wState wPod "nad1" wNSEC wClaim false true rfl

/-! ## C2: the event classification matches the spec's state machine -/

/-- **C2**: `reconcile` classifies every old/new snapshot pair exactly as the
spec's state machine: a no-op event returns `ok` with the state untouched, a
Release-classified event drives `releasePodOnNAD` for each NAD, and an
Allocate-classified event drives `allocatePodOnNAD`. -/
theorem reconcile_matches_spec_state_machine (env : Env) (s : AllocState)
    (old new : Option Pod) (rel : Bool) (pod : Pod) (nad : String)
    (nse : NetworkSelectionElement)
    (hpod : activePod old new = some pod) :
    (specClassify new pod = EventAction.noop →
      reconcile env s old new rel = Except.ok s) ∧
    (specClassify new pod = EventAction.release →
      reconcileForNAD env s old new nad nse rel
        = Except.ok (releasePodOnNAD env s pod nad nse new.isNone rel)) ∧
    (specClassify new pod = EventAction.allocate →
      reconcileForNAD env s old new nad nse rel = allocatePodOnNAD env s pod nad nse) := by
  refine ⟨?_, ?_, ?_⟩
  · intro hc
    unfold reconcile
    rw [hpod]
    unfold specClassify at hc
    by_cases h1 : pod.nodeName = ""
    · simp [PodScheduled, h1]
    · rw [if_neg h1] at hc
      by_cases h2 : pod.hostNetwork = true
      · simp [PodWantsHostNetwork, h2]
      · rw [if_neg h2] at hc
        split at hc <;> simp at hc
  · intro hc
    unfold reconcileForNAD
    rw [hpod]
    unfold specClassify at hc
    by_cases h1 : pod.nodeName = ""
    · rw [if_pos h1] at hc
      simp at hc
    · rw [if_neg h1] at hc
      by_cases h2 : pod.hostNetwork = true
      · rw [if_pos h2] at hc
        simp at hc
      · rw [if_neg h2] at hc
        by_cases h3 : (PodCompleted pod || new.isNone) = true
        · simp [h3]
        · rw [if_neg h3] at hc
          simp at hc
  · intro hc
    unfold reconcileForNAD
    rw [hpod]
    unfold specClassify at hc
    by_cases h1 : pod.nodeName = ""
    · rw [if_pos h1] at hc
      simp at hc
    · rw [if_neg h1] at hc
      by_cases h2 : pod.hostNetwork = true
      · rw [if_pos h2] at hc
        simp at hc
      · rw [if_neg h2] at hc
        by_cases h3 : (PodCompleted pod || new.isNone) = true
        · rw [if_pos h3] at hc
          simp at hc
        · simp only [Bool.not_eq_true] at h3
          simp [h3]

/-- Witness for C2: a completed, scheduled, non-host-network pod is
Release-classified. -/
theorem reconcile_matches_spec_state_machine_witness :
    (specClassify (some wPod) wPod = EventAction.noop →
      reconcile wEnv wState (some wPod) (some wPod) true = Except.ok wState) ∧
    (specClassify (some wPod) wPod = EventAction.release →
      reconcileForNAD wEnv wState (some wPod) (some wPod) "nad1" wNSE true
        = Except.ok (releasePodOnNAD wEnv wState wPod "nad1" wNSE (some wPod).isNone true)) ∧
    (specClassify (some wPod) wPod = EventAction.allocate →
      reconcileForNAD wEnv wState (some wPod) (some wPod) "nad1" wNSE true
        = allocatePodOnNAD wEnv wState wPod "nad1" wNSE) :=
  reconcile_matches_spec_state_machine wEnv wState (some wPod) (some wPod) true wPod "nad1" wNSE rfl

/-! ## C4: a non-empty claim status is never overwritten -/

/-- **C4**: `Reconcile(claim, ips)` on a claim whose observed status already
holds a non-empty IP set returns nil without performing any status write, for
every `ips` and every behavior of the API client. -/
theorem pips_reconcile_preserves_nonempty_status
    (updOK : IPAMClaim → List Nat → Bool) (claim : IPAMClaim) (ips : List Nat)
    (h : claim.statusIPs ≠ []) :
    pipsReconcile updOK claim ips = Except.ok [] := by
  unfold pipsReconcile
  rw [if_pos (List.length_pos.mpr h)]

/-- Witness for C4: a populated claim, an always-failing API client, and an
arbitrary `ips` value. -/
theorem pips_reconcile_preserves_nonempty_status_witness :
    pipsReconcile (fun _ _ => false) wClaim [7, 8] = Except.ok [] :=
  pips_reconcile_preserves_nonempty_status (fun _ _ => false) wClaim [7, 8] (by decide)

/-! ## C5: claim-bridge Sync reserves recorded IPs, tolerating duplicates -/

theorem allocateIP_ok (p p1 : IPPool) (ip : Nat)
    (h : p.allocateIP ip = Except.ok p1) :
    p1.allocated = ip :: p.allocated ∧ p1.ranges = p.ranges := by
  unfold IPPool.allocateIP at h
  split at h
  · simp at h
  · split at h
    · simp at h
    · cases h
      exact ⟨rfl, rfl⟩

theorem allocateIPs_ok (ips : List Nat) : ∀ p p1 : IPPool,
    p.allocateIPs ips = Except.ok p1 →
    (∀ x, x ∈ p.allocated → x ∈ p1.allocated) ∧ (∀ x, x ∈ ips → x ∈ p1.allocated) := by
  induction ips with
  | nil =>
    intro p p1 h
    cases h
    exact ⟨fun x hx => hx, by simp⟩
  | cons ip rest ih =>
    intro p p1 h
    unfold IPPool.allocateIPs at h
    cases hip : p.allocateIP ip with
    | error e =>
      rw [hip] at h
      simp at h
    | ok q =>
      rw [hip] at h
      obtain ⟨hall, _⟩ := allocateIP_ok p q ip hip
      obtain ⟨h1, h2⟩ := ih q p1 h
      refine ⟨fun x hx => h1 x ?_, fun x hx => ?_⟩
      · rw [hall]
        exact List.mem_cons_of_mem _ hx
      · rcases List.mem_cons.mp hx with rfl | hx2
        · refine h1 x ?_
          rw [hall]
          exact List.mem_cons_self _ _
        · exact h2 x hx2

theorem collect_mem (objs : List SyncObj) : ∀ ips c cips x,
    collectClaimIPs objs = Except.ok ips →
    SyncObj.claim c ∈ objs → parseIPNets c.statusIPs = Except.ok cips →
    x ∈ cips → x ∈ ips := by
  induction objs with
  | nil =>
    intro ips c cips x _ hmem
    simp at hmem
  | cons o rest ih =>
    intro ips c cips x hcol hmem hparse hx
    cases o with
    | claim c2 =>
      unfold collectClaimIPs at hcol
      cases hp2 : parseIPNets c2.statusIPs with
      | error e =>
        rw [hp2] at hcol
        simp at hcol
      | ok l =>
        rw [hp2] at hcol
        cases hr : collectClaimIPs rest with
        | error e =>
          rw [hr] at hcol
          simp at hcol
        | ok r =>
          rw [hr] at hcol
          cases hcol
          rcases List.mem_cons.mp hmem with heq | hmem2
          · injection heq with hcc
            subst hcc
            rw [hparse] at hp2
            injection hp2 with hl
            subst hl
            exact List.mem_append_left _ hx
          · exact List.mem_append_right _ (ih r c cips x hr hmem2 hparse hx)
    | pod p =>
      have hred : collectClaimIPs (SyncObj.pod p :: rest) = collectClaimIPs rest := rfl
      rw [hred] at hcol
      rcases List.mem_cons.mp hmem with heq | hmem2
      · simp at heq
      · exact ih ips c cips x hcol hmem2 hparse hx
    | other =>
      have hred : collectClaimIPs (SyncObj.other :: rest) = collectClaimIPs rest := rfl
      rw [hred] at hcol
      rcases List.mem_cons.mp hmem with heq | hmem2
      · simp at heq
      · exact ih ips c cips x hcol hmem2 hparse hx

theorem pipsSync_eq (pool : IPPool) (objs : List SyncObj) (ips : List Nat)
    (hcol : collectClaimIPs objs = Except.ok ips) :
    pipsSync pool objs =
      (if 0 < ips.length then
        match pool.allocateIPs ips with
        | Except.ok p1 => Except.ok p1
        | Except.error IPAllocErr.errAllocated => Except.ok pool
        | Except.error _ => Except.error ()
       else Except.ok pool) := by
  unfold pipsSync
  rw [hcol]

/-- **C5**: the claim-bridge `Sync` reserves every recorded IP of every claim
with a non-empty status (on success they are all allocated in the resulting
pool); a reservation failing with the already-allocated error yields nil (the
pool is left as rolled back), while any other allocation failure — such as an
IP outside all configured ranges — makes `Sync` return an error. -/
theorem pips_sync_reserves_and_tolerates_dup (pool : IPPool)
    (objs : List SyncObj) (ips : List Nat) (p' : IPPool) (c : IPAMClaim)
    (cips : List Nat) (x : Nat)
    (hcol : collectClaimIPs objs = Except.ok ips) :
    (pool.allocateIPs ips = Except.ok p' →
      pipsSync pool objs = Except.ok p' ∧ (x ∈ ips → x ∈ p'.allocated)) ∧
    (pool.allocateIPs ips = Except.error IPAllocErr.errAllocated →
      pipsSync pool objs = Except.ok pool) ∧
    (pool.allocateIPs ips = Except.error IPAllocErr.errNotInRange →
      pipsSync pool objs = Except.error ()) ∧
    (SyncObj.claim c ∈ objs → parseIPNets c.statusIPs = Except.ok cips →
      x ∈ cips → x ∈ ips) := by
  refine ⟨?_, ?_, ?_, fun hm hp hx => collect_mem objs ips c cips x hcol hm hp hx⟩
  · intro hall
    rw [pipsSync_eq pool objs ips hcol]
    by_cases hlen : 0 < ips.length
    · rw [if_pos hlen, hall]
      exact ⟨rfl, fun hx => (allocateIPs_ok ips pool p' hall).2 x hx⟩
    · have hnil : ips = [] := by
        cases ips with
        | nil => rfl
        | cons a l => simp at hlen
      subst hnil
      cases hall
      exact ⟨by rw [if_neg hlen], by simp⟩
  · intro herr
    rw [pipsSync_eq pool objs ips hcol]
    have hlen : 0 < ips.length := by
      cases ips with
      | nil => simp [IPPool.allocateIPs] at herr
      | cons a l => simp
    rw [if_pos hlen, herr]
  · intro herr
    rw [pipsSync_eq pool objs ips hcol]
    have hlen : 0 < ips.length := by
      cases ips with
      | nil => simp [IPPool.allocateIPs] at herr
      | cons a l => simp
    rw [if_pos hlen, herr]

/-- Witness for C5: a claim recording the IP 9 while the pool ranges are
`[1, 2, 3]` — the reservation fails with the not-in-range error, and `Sync`
errors. -/
theorem pips_sync_reserves_and_tolerates_dup_witness :
    ((IPPool.mk [1, 2, 3] []).allocateIPs [9] = Except.ok (IPPool.mk [1, 2, 3] []) →
      pipsSync (IPPool.mk [1, 2, 3] []) [SyncObj.claim wClaim9]
          = Except.ok (IPPool.mk [1, 2, 3] []) ∧
        (9 ∈ [9] → 9 ∈ (IPPool.mk [1, 2, 3] []).allocated)) ∧
    ((IPPool.mk [1, 2, 3] []).allocateIPs [9] = Except.error IPAllocErr.errAllocated →
      pipsSync (IPPool.mk [1, 2, 3] []) [SyncObj.claim wClaim9]
        = Except.ok (IPPool.mk [1, 2, 3] [])) ∧
    ((IPPool.mk [1, 2, 3] []).allocateIPs [9] = Except.error IPAllocErr.errNotInRange →
      pipsSync (IPPool.mk [1, 2, 3] []) [SyncObj.claim wClaim9] = Except.error ()) ∧
    (SyncObj.claim wClaim9 ∈ [SyncObj.claim wClaim9] →
      parseIPNets wClaim9.statusIPs = Except.ok [9] → 9 ∈ [9] → 9 ∈ [9]) :=
  pips_sync_reserves_and_tolerates_dup (IPPool.mk [1, 2, 3] [])
    [SyncObj.claim wClaim9] [9] (IPPool.mk [1, 2, 3] []) wClaim9 [9] 9 rfl

/-! ## C7: id 0 is reserved at Init and never assigned to a workload -/

theorem lookup_some_mem {β : Type} {l : List (String × β)} {k : String} {v : β}
    (h : List.lookup k l = some v) : (k, v) ∈ l := by
  induction l with
  | nil => simp [List.lookup] at h
  | cons e l ih =>
    rcases e with ⟨a, b⟩
    rw [lookup_cons] at h
    by_cases hk : k = a
    · rw [if_pos hk] at h
      injection h with hv
      subst hk
      subst hv
      exact List.mem_cons_self _ _
    · rw [if_neg hk] at h
      exact List.mem_cons_of_mem _ (ih h)

theorem lookup_filter_preserved {β : Type} (l : List (String × β)) (name k : String)
    (hk : k ≠ name) :
    List.lookup k (l.filter (fun e => e.fst ≠ name)) = List.lookup k l := by
  induction l with
  | nil => rfl
  | cons e l ih =>
    rcases e with ⟨a, b⟩
    simp only [List.filter_cons]
    by_cases ha : a = name
    · subst ha
      simp only [ne_eq, not_true_eq_false, decide_False, Bool.false_eq_true, if_false]
      rw [ih, lookup_cons, if_neg (fun hh => hk hh)]
    · simp only [ne_eq, ha, not_false_eq_true, decide_True, if_true]
      rw [lookup_cons, lookup_cons]
      by_cases hka : k = a
      · rw [if_pos hka, if_pos hka]
      · rw [if_neg hka, if_neg hka]
        exact ih

theorem podIdAllocationName_ne_zero (nad uid : String) :
    podIdAllocationName nad uid ≠ "zero" := by
  intro h
  have hs : '/' ∈ (podIdAllocationName nad uid).data := by
    unfold podIdAllocationName
    simp [String.data_append]
  rw [h] at hs
  exact absurd hs (by decide)

theorem initIPAM_idAlloc (netInfo : NetInfo) (s s' : AllocState)
    (h : initIPAM netInfo s = Except.ok s') : s'.idAlloc = s.idAlloc := by
  unfold initIPAM at h
  split at h
  · split at h
    · cases h
      rfl
    · simp at h
  · cases h
    rfl

/-- **C7**: on a tunnel-ID network, `Init` reserves id 0 under the sentinel
name `"zero"`; the resulting namespace satisfies the zero-sentinel invariant;
the invariant is preserved by every workload-driven `AllocateNext` and
`ReleaseID` (workload names are `nad/uid`-shaped, never `"zero"`), and under
it `AllocateNext` never hands id 0 to a workload. -/
theorem init_reserves_zero_tunnel_id (netInfo : NetInfo) (s s' : AllocState)
    (a a' : IDAllocator) (nad uid : String) (id : Nat)
    (ht : netInfo.requiresTunnelIDs = true)
    (hinit : podAllocatorInit netInfo s = Except.ok s') :
    List.lookup "zero" s'.idAlloc.reserved = some 0 ∧
    zeroSentinel s'.idAlloc ∧
    (zeroSentinel a →
      a.allocateNextID (podIdAllocationName nad uid) = Except.ok (id, a') →
      id ≠ 0 ∧ zeroSentinel a') ∧
    (zeroSentinel a → zeroSentinel (a.releaseID (podIdAllocationName nad uid))) := by
  have hida : s'.idAlloc = IDAllocator.mk maxLogicalPortTunnelKey [("zero", 0)] := by
    unfold podAllocatorInit at hinit
    rw [ht] at hinit
    rw [if_pos rfl] at hinit
    rw [show (IDAllocator.mk maxLogicalPortTunnelKey []).reserveID "zero" 0
        = Except.ok (IDAllocator.mk maxLogicalPortTunnelKey [("zero", 0)]) from rfl] at hinit
    exact initIPAM_idAlloc netInfo _ s' hinit
  have hsent : zeroSentinel (IDAllocator.mk maxLogicalPortTunnelKey [("zero", 0)]) := by
    constructor
    · rfl
    · intro n i hmem _
      rcases List.mem_singleton.mp hmem with h
      exact congrArg Prod.fst h
  refine ⟨by rw [hida]; rfl, by rw [hida]; exact hsent, ?_, ?_⟩
  · intro hz hstep
    unfold IDAllocator.allocateNextID at hstep
    cases hlk : List.lookup (podIdAllocationName nad uid) a.reserved with
    | some j =>
      rw [hlk] at hstep
      injection hstep with hpr
      injection hpr with hj ha'
      subst hj
      subst ha'
      refine ⟨?_, hz⟩
      intro h0
      subst h0
      exact podIdAllocationName_ne_zero nad uid (hz.2 _ 0 (lookup_some_mem hlk) rfl)
    | none =>
      rw [hlk] at hstep
      cases hfind : List.find? (fun i => !(a.reservedValues.contains i))
          (List.range (a.maxID + 1)) with
      | none =>
        rw [hfind] at hstep
        simp at hstep
      | some j =>
        rw [hfind] at hstep
        injection hstep with hpr
        injection hpr with hj ha'
        subst hj
        subst ha'
        have h0mem : (0 : Nat) ∈ a.reservedValues :=
          List.mem_map.mpr ⟨("zero", 0), lookup_some_mem hz.1, rfl⟩
        have hfree := List.find?_some hfind
        have hj0 : j ≠ 0 := by
          intro h0
          subst h0
          rw [Bool.not_eq_true'] at hfree
          rw [← List.elem_iff] at h0mem
          rw [show a.reservedValues.contains 0 = List.elem 0 a.reservedValues from rfl] at hfree
          rw [h0mem] at hfree
          exact Bool.noConfusion hfree
        refine ⟨hj0, ?_, ?_⟩
        · show List.lookup "zero" ((podIdAllocationName nad uid, j) :: a.reserved) = some 0
          rw [lookup_cons,
            if_neg (fun hh => podIdAllocationName_ne_zero nad uid hh.symm)]
          exact hz.1
        · intro n i hmem h0
          have hmem2 : (n, i) ∈ (podIdAllocationName nad uid, j) :: a.reserved := hmem
          rcases List.mem_cons.mp hmem2 with heq | hmem3
          · cases heq
            exact absurd h0 hj0
          · exact hz.2 n i hmem3 h0
  · intro hz
    constructor
    · show List.lookup "zero" (a.reserved.filter (fun e => e.fst ≠ podIdAllocationName nad uid)) = some 0
      rw [lookup_filter_preserved _ _ _
        (fun hh => podIdAllocationName_ne_zero nad uid hh.symm)]
      exact hz.1
    · intro n i hmem h0
      exact hz.2 n i (List.mem_of_mem_filter hmem) h0

/-- Witness for C7 at the concrete network configuration. -/
theorem init_reserves_zero_tunnel_id_witness :
    List.lookup "zero" wState.idAlloc.reserved = some 0 ∧
    zeroSentinel wState.idAlloc ∧
    (zeroSentinel wState.idAlloc →
      wState.idAlloc.allocateNextID (podIdAllocationName "nad1" "uid1")
        = Except.ok (1, IDAllocator.mk maxLogicalPortTunnelKey
            [(podIdAllocationName "nad1" "uid1", 1), ("zero", 0)]) →
      1 ≠ 0 ∧ zeroSentinel (IDAllocator.mk maxLogicalPortTunnelKey
            [(podIdAllocationName "nad1" "uid1", 1), ("zero", 0)])) ∧
    (zeroSentinel wState.idAlloc →
      zeroSentinel (wState.idAlloc.releaseID (podIdAllocationName "nad1" "uid1"))) :=
  init_reserves_zero_tunnel_id wNetInfo wState wState wState.idAlloc
    (IDAllocator.mk maxLogicalPortTunnelKey
      [(podIdAllocationName "nad1" "uid1", 1), ("zero", 0)])
    "nad1" "uid1" 1 rfl rfl

/-! ## C3: Sync never releases from the allocators -/

theorem allocateNext_sub (p : IPPool) (ip : Nat) (p1 : IPPool)
    (h : p.allocateNext = some (ip, p1)) :
    ∀ x, x ∈ p.allocated → x ∈ p1.allocated := by
  unfold IPPool.allocateNext at h
  cases hf : List.find? (fun i => !(p.allocated.contains i)) p.ranges with
  | none =>
    rw [hf] at h
    simp at h
  | some j =>
    rw [hf] at h
    injection h with hpr
    injection hpr with hj hp1
    subst hp1
    intro x hx
    exact List.mem_cons_of_mem _ hx

theorem allocateNextID_sub (a : IDAllocator) (name : String) (id : Nat)
    (a' : IDAllocator) (h : a.allocateNextID name = Except.ok (id, a')) :
    ∀ e, e ∈ a.reserved → e ∈ a'.reserved := by
  unfold IDAllocator.allocateNextID at h
  cases hlk : List.lookup name a.reserved with
  | some j =>
    rw [hlk] at h
    injection h with hpr
    injection hpr with hj ha
    subst ha
    exact fun e he => he
  | none =>
    rw [hlk] at h
    cases hf : List.find? (fun i => !(a.reservedValues.contains i))
        (List.range (a.maxID + 1)) with
    | none =>
      rw [hf] at h
      simp at h
    | some j =>
      rw [hf] at h
      injection h with hpr
      injection hpr with hj ha
      subst ha
      exact fun e he => List.mem_cons_of_mem _ he

theorem ipStepAlloc_sub (netInfo : NetInfo) (s : AllocState) (pod : Pod)
    (nad : String) (ipamClaim : Option IPAMClaim) (pool : IPPool) (ips : List Nat)
    (h : ipStepAlloc netInfo s pod nad ipamClaim = Except.ok (pool, ips)) :
    ∀ x, x ∈ s.ipPool.allocated → x ∈ pool.allocated := by
  by_cases hipam : netInfo.requiresIPAM = true
  · cases hd : desiredIPs pod nad ipamClaim with
    | error e =>
      have heq : ipStepAlloc netInfo s pod nad ipamClaim
          = Except.error ReconcileErr.ipAllocFailed := by
        unfold ipStepAlloc
        rw [if_pos hipam, hd]
      rw [heq] at h
      simp at h
    | ok l =>
      cases l with
      | nil =>
        have heq : ipStepAlloc netInfo s pod nad ipamClaim
            = (match s.ipPool.allocateNext with
               | some (ip, pool) => Except.ok (pool, [ip])
               | none => Except.error ReconcileErr.ipAllocFailed) := by
          unfold ipStepAlloc
          rw [if_pos hipam, hd]
        rw [heq] at h
        cases hn : s.ipPool.allocateNext with
        | none =>
          rw [hn] at h
          simp at h
        | some v =>
          rcases v with ⟨ip, p1⟩
          rw [hn] at h
          injection h with hpr
          injection hpr with hp hips
          subst hp
          exact allocateNext_sub _ _ _ hn
      | cons i l2 =>
        have heq : ipStepAlloc netInfo s pod nad ipamClaim
            = (match s.ipPool.allocateIPs (i :: l2) with
               | Except.ok pool => Except.ok (pool, i :: l2)
               | Except.error _ => Except.error ReconcileErr.ipAllocFailed) := by
          unfold ipStepAlloc
          rw [if_pos hipam, hd]
        rw [heq] at h
        cases ha : s.ipPool.allocateIPs (i :: l2) with
        | error e =>
          rw [ha] at h
          simp at h
        | ok p1 =>
          rw [ha] at h
          injection h with hpr
          injection hpr with hp hips
          subst hp
          exact (allocateIPs_ok _ _ _ ha).1
  · have heq : ipStepAlloc netInfo s pod nad ipamClaim = Except.ok (s.ipPool, []) := by
      unfold ipStepAlloc
      rw [if_neg hipam]
    rw [heq] at h
    injection h with hpr
    injection hpr with hp hips
    subst hp
    exact fun x hx => hx

theorem idStepAlloc_sub (netInfo : NetInfo) (s : AllocState) (pod : Pod)
    (nad : String) (ida : IDAllocator) (tid : Nat)
    (h : idStepAlloc netInfo s pod nad = Except.ok (ida, tid)) :
    ∀ e, e ∈ s.idAlloc.reserved → e ∈ ida.reserved := by
  unfold idStepAlloc at h
  by_cases ht : netInfo.requiresTunnelIDs = true
  · rw [if_pos ht] at h
    cases hn : s.idAlloc.allocateNextID (podIdAllocationName nad pod.uid) with
    | error e =>
      rw [hn] at h
      simp at h
    | ok v =>
      rcases v with ⟨id, a'⟩
      rw [hn] at h
      injection h with hpr
      injection hpr with ha htid
      subst ha
      exact allocateNextID_sub _ _ _ _ hn
  · rw [if_neg ht] at h
    injection h with hpr
    injection hpr with ha htid
    subst ha
    exact fun e he => he

theorem allocatePodAnn_sub (netInfo : NetInfo) (s : AllocState) (pod : Pod)
    (nad : String) (ipamClaim : Option IPAMClaim) (s1 : AllocState) (ann : PodAnn)
    (h : allocatePodAnnWithTunnelID netInfo s pod nad ipamClaim = Except.ok (s1, ann)) :
    (∀ x, x ∈ s.ipPool.allocated → x ∈ s1.ipPool.allocated) ∧
    (∀ e, e ∈ s.idAlloc.reserved → e ∈ s1.idAlloc.reserved) := by
  unfold allocatePodAnnWithTunnelID at h
  cases hip : ipStepAlloc netInfo s pod nad ipamClaim with
  | error e =>
    rw [hip] at h
    simp at h
  | ok v =>
    rcases v with ⟨pool, ips⟩
    rw [hip] at h
    cases hid : idStepAlloc netInfo s pod nad with
    | error e =>
      rw [hid] at h
      simp at h
    | ok w =>
      rcases w with ⟨ida, tid⟩
      rw [hid] at h
      injection h with hpr
      injection hpr with hs hann
      subst hs
      exact ⟨ipStepAlloc_sub netInfo s pod nad ipamClaim pool ips hip,
        idStepAlloc_sub netInfo s pod nad ida tid hid⟩

theorem allocatePodOnNAD_sub (env : Env) (s : AllocState) (pod : Pod)
    (nad : String) (network : NetworkSelectionElement) (s1 : AllocState)
    (h : allocatePodOnNAD env s pod nad network = Except.ok s1) :
    (∀ x, x ∈ s.ipPool.allocated → x ∈ s1.ipPool.allocated) ∧
    (∀ e, e ∈ s.idAlloc.reserved → e ∈ s1.idAlloc.reserved) := by
  cases hcl : claimStepAlloc env pod network with
  | error e =>
    simp only [allocatePodOnNAD, hcl] at h
    exact Except.noConfusion h
  | ok ipamClaim =>
    simp only [allocatePodOnNAD, hcl] at h
    cases hal : allocatePodAnnWithTunnelID env.netInfo s pod nad ipamClaim with
    | error e =>
      simp only [hal] at h
      exact Except.noConfusion h
    | ok v =>
      rcases v with ⟨s2, ann⟩
      simp only [hal] at h
      have hsub := allocatePodAnn_sub env.netInfo s pod nad ipamClaim s2 ann hal
      cases ipamClaim with
      | none =>
        injection h with hs
        subst hs
        exact hsub
      | some claim =>
        have h2 : (if env.netInfo.requiresIPAM then
            (match pipsReconcile env.updateLeaseOK claim ann.IPs with
             | Except.ok _ => Except.ok s2
             | Except.error _ => Except.error ReconcileErr.statusUpdateFailed)
          else Except.ok s2) = Except.ok s1 := h
        by_cases hipam : env.netInfo.requiresIPAM = true
        · rw [if_pos hipam] at h2
          cases hrec : pipsReconcile env.updateLeaseOK claim ann.IPs with
          | error e =>
            rw [hrec] at h2
            exact Except.noConfusion h2
          | ok ws =>
            rw [hrec] at h2
            injection h2 with hs
            subst hs
            exact hsub
        · rw [if_neg hipam] at h2
          injection h2 with hs
          subst hs
          exact hsub

theorem reconcileForNAD_norelease_sub (env : Env) (s : AllocState)
    (old new : Option Pod) (nad : String) (nse : NetworkSelectionElement)
    (s1 : AllocState)
    (h : reconcileForNAD env s old new nad nse false = Except.ok s1) :
    (∀ x, x ∈ s.ipPool.allocated → x ∈ s1.ipPool.allocated) ∧
    (∀ e, e ∈ s.idAlloc.reserved → e ∈ s1.idAlloc.reserved) := by
  unfold reconcileForNAD at h
  cases hap : activePod old new with
  | none =>
    rw [hap] at h
    injection h with hs
    subst hs
    exact ⟨fun _ hx => hx, fun _ he => he⟩
  | some pod =>
    rw [hap] at h
    have h2 : (if PodCompleted pod || new.isNone then
        Except.ok (releasePodOnNAD env s pod nad nse new.isNone false)
      else allocatePodOnNAD env s pod nad nse) = Except.ok s1 := h
    by_cases hc : (PodCompleted pod || new.isNone) = true
    · rw [if_pos hc] at h2
      injection h2 with hs
      subst hs
      have hfr := releasePodOnNAD_frame env s pod nad nse new.isNone false (by simp)
      constructor
      · intro x hx
        rw [hfr.1]
        exact hx
      · intro e he
        rw [hfr.2]
        exact he
    · rw [if_neg hc] at h2
      exact allocatePodOnNAD_sub env s pod nad nse s1 h2

theorem reconcileNADs_norelease_sub (env : Env) (old new : Option Pod)
    (l : List (String × NetworkSelectionElement)) : ∀ s s1 : AllocState,
    reconcileNADs env old new false s l = Except.ok s1 →
    (∀ x, x ∈ s.ipPool.allocated → x ∈ s1.ipPool.allocated) ∧
    (∀ e, e ∈ s.idAlloc.reserved → e ∈ s1.idAlloc.reserved) := by
  induction l with
  | nil =>
    intro s s1 h
    injection h with hs
    subst hs
    exact ⟨fun _ hx => hx, fun _ he => he⟩
  | cons hd tl ih =>
    intro s s1 h
    rcases hd with ⟨nad, nse⟩
    unfold reconcileNADs at h
    cases hr : reconcileForNAD env s old new nad nse false with
    | error e =>
      rw [hr] at h
      simp at h
    | ok s2 =>
      rw [hr] at h
      obtain ⟨p1, q1⟩ := reconcileForNAD_norelease_sub env s old new nad nse s2 hr
      obtain ⟨p2, q2⟩ := ih s2 s1 h
      exact ⟨fun x hx => p2 x (p1 x hx), fun e he => q2 e (q1 e he)⟩

theorem reconcile_eq_some (env : Env) (s : AllocState) (old new : Option Pod)
    (rel : Bool) (pod : Pod) (hap : activePod old new = some pod) :
    reconcile env s old new rel =
      (if !(PodScheduled pod) || PodWantsHostNetwork pod then Except.ok s
       else
         match env.getNADMapping pod with
         | Except.error _ => Except.error ReconcileErr.nadMappingFailed
         | Except.ok (onNetwork, networkMap) =>
           if !onNetwork then Except.ok s
           else reconcileNADs env old new rel s networkMap) := by
  unfold reconcile
  rw [hap]

theorem reconcile_norelease_sub (env : Env) (s : AllocState)
    (old new : Option Pod) (s1 : AllocState)
    (h : reconcile env s old new false = Except.ok s1) :
    (∀ x, x ∈ s.ipPool.allocated → x ∈ s1.ipPool.allocated) ∧
    (∀ e, e ∈ s.idAlloc.reserved → e ∈ s1.idAlloc.reserved) := by
  cases hap : activePod old new with
  | none =>
    unfold reconcile at h
    rw [hap] at h
    injection h with hs
    subst hs
    exact ⟨fun _ hx => hx, fun _ he => he⟩
  | some pod =>
    rw [reconcile_eq_some env s old new false pod hap] at h
    by_cases hg : (!(PodScheduled pod) || PodWantsHostNetwork pod) = true
    · rw [if_pos hg] at h
      injection h with hs
      subst hs
      exact ⟨fun _ hx => hx, fun _ he => he⟩
    · rw [if_neg hg] at h
      cases hm : env.getNADMapping pod with
      | error e =>
        rw [hm] at h
        simp at h
      | ok v =>
        rcases v with ⟨onNetwork, networkMap⟩
        rw [hm] at h
        have h2 : (if !onNetwork then Except.ok s
            else reconcileNADs env old new false s networkMap) = Except.ok s1 := h
        by_cases hon : (!onNetwork) = true
        · rw [if_pos hon] at h2
          injection h2 with hs
          subst hs
          exact ⟨fun _ hx => hx, fun _ he => he⟩
        · rw [if_neg hon] at h2
          exact reconcileNADs_norelease_sub env old new networkMap s s1 h2

theorem podSyncFold_sub (env : Env) (objs : List SyncObj) : ∀ s : AllocState,
    (∀ x, x ∈ s.ipPool.allocated →
      x ∈ (objs.foldl (podSyncStep env) s).ipPool.allocated) ∧
    (∀ e, e ∈ s.idAlloc.reserved →
      e ∈ (objs.foldl (podSyncStep env) s).idAlloc.reserved) := by
  induction objs with
  | nil =>
    intro s
    exact ⟨fun _ hx => hx, fun _ he => he⟩
  | cons o rest ih =>
    intro s
    rw [List.foldl_cons]
    have hstep :
        (∀ x, x ∈ s.ipPool.allocated → x ∈ (podSyncStep env s o).ipPool.allocated) ∧
        (∀ e, e ∈ s.idAlloc.reserved → e ∈ (podSyncStep env s o).idAlloc.reserved) := by
      cases o with
      | pod p =>
        cases hr : reconcile env s none (some p) false with
        | error e =>
          simp only [podSyncStep, hr]
          exact ⟨fun _ hx => hx, fun _ he => he⟩
        | ok s1 =>
          simp only [podSyncStep, hr]
          exact reconcile_norelease_sub env s none (some p) s1 hr
      | claim c => exact ⟨fun _ hx => hx, fun _ he => he⟩
      | other => exact ⟨fun _ hx => hx, fun _ he => he⟩
    obtain ⟨a1, a2⟩ := hstep
    obtain ⟨b1, b2⟩ := ih (podSyncStep env s o)
    exact ⟨fun x hx => b1 x (a1 x hx), fun e he => b2 e (a2 e he)⟩

/-- **C3**: startup replay never releases: `Sync` (which passes
`releaseFromAllocator = false` to every replayed `reconcile`) never removes an
address from the pool's allocated set nor a reservation from the tunnel-ID
namespace, and a single traversal of the release path with release suppressed
leaves both allocators exactly unchanged — even for completed-looking pods. -/
theorem sync_never_releases_allocators (env : Env) (s : AllocState)
    (objs : List SyncObj) (s' : AllocState) (x : Nat) (ent : String × Nat)
    (pod : Pod) (nad : String) (nse : NetworkSelectionElement) (d : Bool)
    (hs : podAllocatorSync env s objs = Except.ok s') :
    (x ∈ s.ipPool.allocated → x ∈ s'.ipPool.allocated) ∧
    (ent ∈ s.idAlloc.reserved → ent ∈ s'.idAlloc.reserved) ∧
    (releasePodOnNAD env s pod nad nse d false).ipPool = s.ipPool ∧
    (releasePodOnNAD env s pod nad nse d false).idAlloc = s.idAlloc := by
  have hs' : s' = objs.foldl (podSyncStep env) s := by
    unfold podAllocatorSync at hs
    injection hs with h
    exact h.symm
  subst hs'
  obtain ⟨h1, h2⟩ := podSyncFold_sub env objs s
  exact ⟨h1 x, h2 ent,
    (releasePodOnNAD_frame env s pod nad nse d false (by simp)).1,
    (releasePodOnNAD_frame env s pod nad nse d false (by simp)).2⟩

/-- Witness for C3: replaying a completed pod already holding IP 2 keeps 2
allocated and the zero-sentinel reservation in place. -/
theorem sync_never_releases_allocators_witness :
    (2 ∈ wState.ipPool.allocated → 2 ∈ wSyncState.ipPool.allocated) ∧
    (("zero", 0) ∈ wState.idAlloc.reserved → ("zero", 0) ∈ wSyncState.idAlloc.reserved) ∧
    (releasePodOnNAD wEnv wState wPod "nad1" wNSE false false).ipPool = wState.ipPool ∧
    (releasePodOnNAD wEnv wState wPod "nad1" wNSE false false).idAlloc = wState.idAlloc :=
  sync_never_releases_allocators wEnv wState [SyncObj.pod wPod] wSyncState 2 ("zero", 0)
    wPod "nad1" wNSE false rfl

/-! ## C10: PodAllocator.Sync never surfaces a per-object error -/

/-- **C10**: `PodAllocator.Sync` always returns nil: an element that is not a
pod is skipped, and a per-pod reconcile failure is logged and skipped without
being propagated, so no startup-replay error for an individual workload is
surfaced through `Sync`'s error return. -/
theorem pod_sync_swallows_errors (env : Env) (s : AllocState)
    (objs rest : List SyncObj) (p : Pod) (c : IPAMClaim) (e : ReconcileErr) :
    (podAllocatorSync env s objs).isOk = true ∧
    podAllocatorSync env s (SyncObj.claim c :: rest) = podAllocatorSync env s rest ∧
    podAllocatorSync env s (SyncObj.other :: rest) = podAllocatorSync env s rest ∧
    (reconcile env s none (some p) false = Except.error e →
      podAllocatorSync env s (SyncObj.pod p :: rest) = podAllocatorSync env s rest) := by
  refine ⟨rfl, rfl, rfl, ?_⟩
  intro herr
  unfold podAllocatorSync
  rw [List.foldl_cons]
  have hstep : podSyncStep env s (SyncObj.pod p) = s := by
    have h2 : podSyncStep env s (SyncObj.pod p)
        = (match reconcile env s none (some p) false with
           | Except.ok s1 => s1
           | Except.error _ => s) := rfl
    rw [h2, herr]
  rw [hstep]

/-- Witness for C10: an environment whose NAD-mapping lookup fails, so the
per-pod reconcile errors, yet Sync still returns ok. -/
theorem pod_sync_swallows_errors_witness :
    (podAllocatorSync wEnvErr wState [SyncObj.pod wPod]).isOk = true ∧
    podAllocatorSync wEnvErr wState (SyncObj.claim wClaim :: [])
      = podAllocatorSync wEnvErr wState [] ∧
    podAllocatorSync wEnvErr wState (SyncObj.other :: [])
      = podAllocatorSync wEnvErr wState [] ∧
    (reconcile wEnvErr wState none (some wPod) false
        = Except.error ReconcileErr.nadMappingFailed →
      podAllocatorSync wEnvErr wState (SyncObj.pod wPod :: [])
        = podAllocatorSync wEnvErr wState []) :=
  pod_sync_swallows_errors wEnvErr wState [SyncObj.pod wPod] [] wPod wClaim
    ReconcileErr.nadMappingFailed
